import Mathlib

/-!
# Verification of `pub` (an in-process event publisher)

Shallow embedding of `src/pub.go`.  The publisher's registry
`map[string]*subQueue` is a finite map from event names to queues; it is
embedded as a function `String → Option subQueue` (`none` = the key is absent,
so the Go lookup yields the nil pointer).  Calls to the logging collaborator
are recorded as a trace of `LogEntry` values returned by each operation, and
the goroutines started by `Publish` are returned as a list of `Goroutine`
records.  A Go panic (a method that needs the fields of a nil `*subQueue`) is
the `none` result of an operation.

Only `pub.go` is embedded from source.  The queue type, the error values, the
payload type and the helpers `EventExist`, `SubscribersCount`,
`subscriberToEventAlreadyExists` and `getFunctionName` are declared in other
files of the package; their embeddings follow the spec and are marked
"Modelled from the spec".
-/

namespace Pub

/-! ## Data model -/

/-- Modelled from the spec: the callback type `subFunc` is declared outside
`pub.go`.  The spec (§3) describes a handle as "a callback value plus a derived
identity"; `name` is that derived identity (what `getFunctionName` reports) and
`id` tells apart distinct callback values that share an identity. -/
structure subFunc where
  name : String
  id : Nat
  deriving DecidableEq, Repr

/-- Modelled from the spec: `getFunctionName` is declared outside `pub.go`.
It yields the derived identity of a callback (§3, §9 "identity of a
callback"). -/
def getFunctionName (f : subFunc) : String := f.name

/-- Modelled from the spec: `Header` is declared outside `pub.go`; the fields
are the ones `Publish` assigns (`name`, `eventTime`).  Time is a natural
number. -/
structure Header where
  name : String
  eventTime : Nat
  deriving DecidableEq, Repr

/-- Modelled from the spec: `EventPayload` is declared outside `pub.go`.  It is
a caller-supplied value carrying a `Header` (§3); `Data` stands for the rest of
the payload. -/
structure EventPayload where
  Header : Header
  Data : String
  deriving DecidableEq, Repr

/-- Modelled from the spec: the three error values of §7, declared outside
`pub.go`, under the names `pub.go` uses for them. -/
inductive PubError where
  | ErrEventDoesNotExist
  | ErrSubscriberDoesNotExist
  | ErrNoSubscribers
  deriving DecidableEq, Repr

/-- One call made on the logging collaborator (`Logger.LogInfo` or
`Logger.LogErr`) with its message. -/
inductive LogEntry where
  | LogInfo (msg : String)
  | LogErr (msg : String)
  deriving DecidableEq, Repr

/-- Modelled from the spec: the `Logger` interface is declared outside
`pub.go`; a value of it is a configured logging sink (§6). -/
structure Logger where
  id : Nat
  deriving DecidableEq, Repr

/-- Modelled from the spec: `subQueue` is declared outside `pub.go`.  It is
"an ordered, mutable collection of callback handles for one event name" (§2);
`pub.go` reads its field `subscribers`.  The queue is a sequence value: a
snapshot taken from it does not change when the queue is changed later. -/
structure subQueue where
  subscribers : List subFunc
  deriving DecidableEq, Repr

/-- Modelled from the spec: `newQueue` is declared outside `pub.go`; it builds
a queue holding the given handles, and `newQueue(nil)` is the "fresh, empty
Subscriber Queue" of §4.1. -/
def newQueue (subs : List subFunc) : subQueue := ⟨subs⟩

/-- Modelled from the spec: `popAll` (outside `pub.go`) "clears the queue in
place" (§4.2). -/
def subQueue.popAll (_q : subQueue) : subQueue := ⟨[]⟩

/-- Modelled from the spec: `pushFunc` (outside `pub.go`) is the queue's
"append" (§2): the handle goes to the end of the sequence. -/
def subQueue.pushFunc (q : subQueue) (f : subFunc) : subQueue := ⟨q.subscribers ++ [f]⟩

/-- Modelled from the spec: `popFuncAt` (outside `pub.go`) removes the handle at
position `idx` of the queue.  The spec gives the queue a remove operation and
no failure for it, so a position the queue does not have leaves the queue as
it is. -/
def subQueue.popFuncAt (q : subQueue) (idx : Nat) : subQueue := ⟨q.subscribers.eraseIdx idx⟩

/-- Modelled from the spec: `getAllSubs` (outside `pub.go`) is the queue's
"snapshot" (§2, §4.3): the handles currently in the queue, in order. -/
def subQueue.getAllSubs (q : subQueue) : List subFunc := q.subscribers

/-- The struct `Publisher` of `pub.go`: the registry, the logger (nil until
`SetLogger`) and the flag `DisableLogs`. -/
structure Publisher where
  subscribers : String → Option subQueue
  l : Option Logger
  DisableLogs : Bool

/-- `NewPublisher` of `pub.go`: empty registry, no logger, `DisableLogs: true`. -/
def NewPublisher : Publisher :=
  { subscribers := fun _ => none, l := none, DisableLogs := true }

/-- `SetLogger` of `pub.go`; the argument is an interface value and may be nil. -/
def Publisher.SetLogger (d : Publisher) (logger : Option Logger) : Publisher :=
  { d with l := logger }

/-- The Go statement `d.subscribers[ev] = q`. -/
def Publisher.store (d : Publisher) (ev : String) (q : subQueue) : Publisher :=
  { d with subscribers := fun k => if k = ev then some q else d.subscribers k }

/-- The Go statement `delete(d.subscribers, ev)`. -/
def Publisher.delete (d : Publisher) (ev : String) : Publisher :=
  { d with subscribers := fun k => if k = ev then none else d.subscribers k }

/-- Modelled from the spec: `EventExist` (outside `pub.go`) is the "existence
check, no side effects" of §4.1. -/
def Publisher.EventExist (d : Publisher) (name : String) : Bool :=
  (d.subscribers name).isSome

/-- Modelled from the spec: `SubscribersCount` (outside `pub.go`) is the "size
of the queue for an existing event; returns 0 conceptually for a non-existent
event" (§4.1). -/
def Publisher.SubscribersCount (d : Publisher) (name : String) : Nat :=
  match d.subscribers name with
  | none => 0
  | some q => q.subscribers.length

/-- Modelled from the spec: `subscriberToEventAlreadyExists` (outside
`pub.go`) tells whether "a handle with that identity already exists in the
event's queue" (§4.2); no queue, no such handle. -/
def Publisher.subscriberToEventAlreadyExists (d : Publisher) (s : subFunc) (event : String) :
    Bool :=
  match d.subscribers event with
  | none => false
  | some q => q.subscribers.any (fun f => getFunctionName f == getFunctionName s)

/-- `logErr` of `pub.go`: the logger's `LogErr` is called when logging is not
disabled and a logger is set; the result is the list of calls made. -/
def Publisher.logErr (d : Publisher) (msg : String) : List LogEntry :=
  if !d.DisableLogs && d.l.isSome then [LogEntry.LogErr msg] else []

/-- `logInf` of `pub.go`: the logger's `LogInfo` is called when logging is not
disabled and a logger is set; the result is the list of calls made. -/
def Publisher.logInf (d : Publisher) (msg : String) : List LogEntry :=
  if !d.DisableLogs && d.l.isSome then [LogEntry.LogInfo msg] else []

/-! ## Operations of `pub.go` -/

/-- One iteration of the loop of `CreateEvent`: an existing queue is emptied in
place, then a new empty queue is stored under the name. -/
def Publisher.createOne (d : Publisher) (ev : String) : Publisher :=
  let d1 :=
    if d.EventExist ev then
      match d.subscribers ev with
      | some q => d.store ev q.popAll
      | none => d
    else d
  d1.store ev (newQueue [])

/-- `CreateEvent` of `pub.go`. -/
def Publisher.CreateEvent (d : Publisher) (events : List String) : Publisher :=
  events.foldl Publisher.createOne d

/-- `Subscribe` of `pub.go`: the loop body is run over the callbacks in order.
The result is the new state and the log calls made, or `none` when the call
panics: `d.subscribers[event]` is the nil pointer for an absent event and
`pushFunc` needs the queue behind it. -/
def Publisher.Subscribe (d : Publisher) (event : String) :
    List subFunc → Option (Publisher × List LogEntry)
  | [] => some (d, [])
  | s :: rest =>
    if !d.subscriberToEventAlreadyExists s event then
      match d.subscribers event with
      | none => none
      | some q =>
        let d1 := d.store event (q.pushFunc s)
        let subscriberName := getFunctionName s
        let out := d1.logInf
          ("Subscriber: " ++ subscriberName ++ " subscribed to Event: " ++ event)
        match Publisher.Subscribe d1 event rest with
        | none => none
        | some (d2, more) => some (d2, out ++ more)
    else Publisher.Subscribe d event rest

/-- The loop `for idx, f := range eventSubs.subscribers` of `Unsubscribe`: the
range expression is evaluated once, so the loop walks the handles `fs` the
queue held when the loop started, `idx` counting from the position of the
first of them, while `popFuncAt` acts on the queue `q` as it is now.  When at
most one handle of the queue has the identity looked for there is at most one
removal, at a position where the walk and the queue agree, and no later handle
is acted on: the result then does not depend on how `popFuncAt` stores the
queue.  That is the case of every queue `Subscribe` can build. -/
def unsubscribeLoop (subscriberName : String) : Nat → List subFunc → subQueue → subQueue
  | _, [], q => q
  | idx, f :: fs, q =>
    unsubscribeLoop subscriberName (idx + 1) fs
      (if subscriberName = getFunctionName f then q.popFuncAt idx else q)

/-- What `Unsubscribe` gives back: the state afterwards, the two returned
values and the log calls made. -/
structure UnsubscribeResult where
  state : Publisher
  ok : Bool
  err : Option PubError
  log : List LogEntry

/-- `Unsubscribe` of `pub.go`. -/
def Publisher.Unsubscribe (d : Publisher) (subscriber : subFunc) (event : String) :
    UnsubscribeResult :=
  match d.subscribers event with
  | none => ⟨d, false, some PubError.ErrEventDoesNotExist, []⟩
  | some eventSubs =>
    if !d.subscriberToEventAlreadyExists subscriber event then
      ⟨d, false, some PubError.ErrSubscriberDoesNotExist, []⟩
    else
      let subscriberName := getFunctionName subscriber
      let d1 := d.store event (unsubscribeLoop subscriberName 0 eventSubs.subscribers eventSubs)
      let d2 := if d1.SubscribersCount event = 0 then d1.delete event else d1
      ⟨d2, true, none,
        d2.logInf ("Subscriber: " ++ subscriberName ++ " unsubscribed from Event: " ++ event)⟩

/-- How a call of a subscriber ends. -/
inductive Outcome where
  | returned
  | panicked
  deriving DecidableEq, Repr

/-- The function built by `subWrapper` of `pub.go`, applied to its argument.
`run` is what the callbacks do when called.  The result is how the wrapper's
call ends for its caller and the log calls it made: a panic of the callback is
recovered by the deferred function, which logs the failure. -/
def Publisher.subWrapper (d : Publisher) (run : subFunc → EventPayload → Outcome)
    (f : subFunc) (event : String) (args : EventPayload) : Outcome × List LogEntry :=
  let subscriberName := getFunctionName f
  let before := d.logInf ("Executing subscriber: " ++ subscriberName ++ ". Event: " ++ event)
  match run f args with
  | Outcome.returned =>
    (Outcome.returned,
      before ++ d.logInf ("Done executing subscriber " ++ subscriberName ++ ". Event: " ++ event))
  | Outcome.panicked =>
    (Outcome.returned,
      before ++ d.logErr
        ("Subscriber: " ++ subscriberName ++ " processing failed for Event: " ++ event))

/-- One `go execSubscriber(data)` statement of `Publish`: the subscriber that
was wrapped, the event it was wrapped for and the payload passed. -/
structure Goroutine where
  subscriber : subFunc
  event : String
  data : EventPayload
  deriving DecidableEq, Repr

/-- What running a started goroutine does: the wrapper of its subscriber is
called with its payload. -/
def Goroutine.exec (g : Goroutine) (d : Publisher) (run : subFunc → EventPayload → Outcome) :
    Outcome × List LogEntry :=
  d.subWrapper run g.subscriber g.event g.data

/-- What `Publish` gives back: the state afterwards, the two returned values
and the goroutines started, in the order of the `go` statements. -/
structure PublishResult where
  state : Publisher
  ok : Bool
  err : Option PubError
  launched : List Goroutine

/-- `Publish` of `pub.go`; `now` is the value of `time.Now()`. -/
def Publisher.Publish (d : Publisher) (event : String) (data : EventPayload) (now : Nat) :
    PublishResult :=
  match d.subscribers event with
  | none => ⟨d, false, some PubError.ErrEventDoesNotExist, []⟩
  | some q =>
    let subscribers := q.getAllSubs
    if subscribers.length = 0 then
      ⟨d, false, some PubError.ErrNoSubscribers, []⟩
    else
      let data1 : EventPayload := { data with Header := { name := event, eventTime := now } }
      ⟨d, true, none, subscribers.map (fun subscriber => ⟨subscriber, event, data1⟩)⟩

/-! ## Notions of the spec used to state the claims -/

/-- A handle of the queue has the derived identity `name` (spec §3, §4.2). -/
def subQueue.hasIdentity (q : subQueue) (name : String) : Prop :=
  ∃ f ∈ q.subscribers, getFunctionName f = name

instance (q : subQueue) (name : String) : Decidable (q.hasIdentity name) := by
  unfold subQueue.hasIdentity
  infer_instance

/-- The number of handles of the queue with the derived identity `name`. -/
def subQueue.identityCount (q : subQueue) (name : String) : Nat :=
  q.subscribers.countP (fun f => getFunctionName f == name)

/-- The queue the spec (§4.2) describes after subscribing `s`: `s` appended at
the end when no handle has its identity, the same queue otherwise. -/
def subQueue.subscribed (q : subQueue) (s : subFunc) : subQueue :=
  if q.hasIdentity (getFunctionName s) then q else ⟨q.subscribers ++ [s]⟩

/-- No two handles of the queue have the same derived identity (the invariant
of spec §3). -/
def subQueue.uniqueIdentities (q : subQueue) : Prop :=
  (q.subscribers.map getFunctionName).Nodup

instance (q : subQueue) : Decidable q.uniqueIdentities := by
  unfold subQueue.uniqueIdentities
  infer_instance

/-- The states a publisher can be in after `NewPublisher` and any sequence of
calls of `CreateEvent`, `Subscribe`, `Unsubscribe` and `Publish` that return. -/
inductive Reachable : Publisher → Prop where
  | init : Reachable NewPublisher
  | createEvent (d : Publisher) (events : List String) :
      Reachable d → Reachable (d.CreateEvent events)
  | subscribe (d : Publisher) (event : String) (subs : List subFunc)
      (r : Publisher × List LogEntry) :
      Reachable d → d.Subscribe event subs = some r → Reachable r.1
  | unsubscribe (d : Publisher) (s : subFunc) (event : String) :
      Reachable d → Reachable (d.Unsubscribe s event).state
  | publish (d : Publisher) (event : String) (data : EventPayload) (now : Nat) :
      Reachable d → Reachable (d.Publish event data now).state

/-- Every queue of the registry has unique identities. -/
def Publisher.uniqueIdentities (d : Publisher) : Prop :=
  ∀ ev q, d.subscribers ev = some q → q.uniqueIdentities

/-! ## Helper lemmas -/

theorem store_same (d : Publisher) (ev : String) (q : subQueue) :
    (d.store ev q).subscribers ev = some q := by
  simp [Publisher.store]

theorem store_other (d : Publisher) (ev k : String) (q : subQueue) (h : k ≠ ev) :
    (d.store ev q).subscribers k = d.subscribers k := by
  simp [Publisher.store, h]

theorem createOne_same (d : Publisher) (ev : String) :
    (d.createOne ev).subscribers ev = some (newQueue []) := by
  simp [Publisher.createOne, Publisher.store]

theorem createOne_other (d : Publisher) (ev k : String) (h : k ≠ ev) :
    (d.createOne ev).subscribers k = d.subscribers k := by
  unfold Publisher.createOne
  simp only [Publisher.store, h, if_false]
  split
  · split <;> simp [h]
  · rfl

/-- After `CreateEvent`, a listed name holds a new empty queue. -/
theorem CreateEvent_listed (events : List String) (d : Publisher) (e : String)
    (h : e ∈ events) : (d.CreateEvent events).subscribers e = some (newQueue []) := by
  induction events using List.reverseRecOn generalizing d with
  | nil => simp at h
  | append_singleton xs x ih =>
    simp only [Publisher.CreateEvent, List.foldl_append, List.foldl_cons, List.foldl_nil]
    by_cases hx : e = x
    · subst hx; exact createOne_same _ _
    · rw [createOne_other _ _ _ hx]
      have hmem : e ∈ xs := by
        rcases List.mem_append.mp h with h1 | h1
        · exact h1
        · simp at h1; exact absurd h1 hx
      exact ih d hmem

/-- The modelled check `subscriberToEventAlreadyExists` in the words of the
spec: some handle of the event's queue has the identity of the callback. -/
theorem alreadyExists_iff (d : Publisher) (s : subFunc) (event : String) (q : subQueue)
    (hq : d.subscribers event = some q) :
    d.subscriberToEventAlreadyExists s event = true ↔
      ∃ f ∈ q.subscribers, getFunctionName f = getFunctionName s := by
  simp [Publisher.subscriberToEventAlreadyExists, hq, List.any_eq_true]

theorem alreadyExists_eq_decide (d : Publisher) (s : subFunc) (event : String) (q : subQueue)
    (hq : d.subscribers event = some q) :
    d.subscriberToEventAlreadyExists s event = decide (q.hasIdentity (getFunctionName s)) := by
  have h := alreadyExists_iff d s event q hq
  by_cases hx : q.hasIdentity (getFunctionName s)
  · simp only [hx, decide_True]; exact h.mpr hx
  · simp only [hx, decide_False]
    cases hb : d.subscriberToEventAlreadyExists s event with
    | false => rfl
    | true => exact absurd (h.mp hb) hx

theorem Subscribe_nil (d : Publisher) (event : String) :
    d.Subscribe event [] = some (d, []) := rfl

theorem subscribed_absent (q : subQueue) (s : subFunc)
    (h : ¬ q.hasIdentity (getFunctionName s)) : q.subscribed s = q.pushFunc s := by
  simp [subQueue.subscribed, h, subQueue.pushFunc]

theorem subscribed_present (q : subQueue) (s : subFunc)
    (h : q.hasIdentity (getFunctionName s)) : q.subscribed s = q := by
  simp [subQueue.subscribed, h]

/-- `Subscribe` of one more callback whose identity the queue already holds
does nothing for that callback. -/
theorem Subscribe_cons_present (d : Publisher) (event : String) (s : subFunc)
    (rest : List subFunc) (h : d.subscriberToEventAlreadyExists s event = true) :
    d.Subscribe event (s :: rest) = d.Subscribe event rest := by
  simp [Publisher.Subscribe, h]

/-- `Subscribe` of one more callback whose identity the queue does not hold:
the callback is appended, the call is logged, and the loop goes on. -/
theorem Subscribe_cons_absent (d : Publisher) (event : String) (s : subFunc)
    (rest : List subFunc) (q : subQueue) (hq : d.subscribers event = some q)
    (h : d.subscriberToEventAlreadyExists s event = false) :
    d.Subscribe event (s :: rest) =
      ((d.store event (q.pushFunc s)).Subscribe event rest).map
        (fun r => (r.1, (d.store event (q.pushFunc s)).logInf
          ("Subscriber: " ++ getFunctionName s ++ " subscribed to Event: " ++ event) ++ r.2)) := by
  simp only [Publisher.Subscribe, h, hq]
  cases (d.store event (q.pushFunc s)).Subscribe event rest <;> rfl

/-- `Subscribe` of one callback on an existing event: the state afterwards. -/
theorem Subscribe_single (d : Publisher) (event : String) (s : subFunc) (q : subQueue)
    (hq : d.subscribers event = some q) :
    ∃ r, d.Subscribe event [s] = some r ∧
      r.1.subscribers event = some (q.subscribed s) ∧
      (∀ k, k ≠ event → r.1.subscribers k = d.subscribers k) := by
  have hdec := alreadyExists_eq_decide d s event q hq
  by_cases hx : q.hasIdentity (getFunctionName s)
  · refine ⟨(d, []), ?_, ?_, fun _ _ => rfl⟩
    · simp [Publisher.Subscribe, hdec, hx]
    · simp [subQueue.subscribed, hx, hq]
  · have hp : d.subscriberToEventAlreadyExists s event = false := by simp [hdec, hx]
    have hs := Subscribe_cons_absent d event s [] q hq hp
    rw [Subscribe_nil, Option.map_some'] at hs
    refine ⟨_, hs, ?_, ?_⟩
    · rw [subscribed_absent q s hx]
      exact store_same _ _ _
    · intro k hk
      exact store_other d event k _ hk

theorem subscribed_hasIdentity (q : subQueue) (s : subFunc) :
    (q.subscribed s).hasIdentity (getFunctionName s) := by
  unfold subQueue.subscribed
  split
  · assumption
  · exact ⟨s, by simp, rfl⟩

theorem subscribed_subscribed (q : subQueue) (s : subFunc) :
    (q.subscribed s).subscribed s = q.subscribed s := by
  have h := subscribed_hasIdentity q s
  generalize q.subscribed s = q1 at h ⊢
  simp [subQueue.subscribed, h]

/-! ### The removal loop of `Unsubscribe` -/

/-- The loop only removes handles: what it leaves is a sublist of the queue it
started from. -/
theorem unsubscribeLoop_sublist (name : String) (fs : List subFunc) :
    ∀ (idx : Nat) (q : subQueue),
      (unsubscribeLoop name idx fs q).subscribers.Sublist q.subscribers := by
  induction fs with
  | nil => intro idx q; exact List.Sublist.refl _
  | cons f fs ih =>
    intro idx q
    simp only [unsubscribeLoop]
    split
    · exact (ih (idx + 1) (q.popFuncAt idx)).trans (List.eraseIdx_sublist _ _)
    · exact ih (idx + 1) q

/-- The loop removes at most one handle for each handle it walks over that has
the identity looked for. -/
theorem unsubscribeLoop_length (name : String) (fs : List subFunc) :
    ∀ (idx : Nat) (q : subQueue),
      q.subscribers.length ≤
        (unsubscribeLoop name idx fs q).subscribers.length
          + fs.countP (fun f => getFunctionName f == name) := by
  induction fs with
  | nil => intro idx q; simp [unsubscribeLoop]
  | cons f fs ih =>
    intro idx q
    simp only [unsubscribeLoop]
    by_cases hm : name = getFunctionName f
    · have h1 := ih (idx + 1) (q.popFuncAt idx)
      have h2 : q.subscribers.length ≤ (q.popFuncAt idx).subscribers.length + 1 := by
        simp only [subQueue.popFuncAt, List.length_eraseIdx]
        split <;> omega
      have h3 : (f :: fs).countP (fun f => getFunctionName f == name)
          = fs.countP (fun f => getFunctionName f == name) + 1 := by
        simp [List.countP_cons, hm]
      simp only [hm, if_true] at h1 ⊢
      rw [← hm] at h1 ⊢
      omega
    · have h1 := ih (idx + 1) q
      have h3 : (f :: fs).countP (fun f => getFunctionName f == name)
          = fs.countP (fun f => getFunctionName f == name) := by
        have : ¬ getFunctionName f = name := fun h => hm h.symm
        simp [List.countP_cons, this]
      simp only [hm, if_false]
      omega

/-- The loop leaves the queue as it is when no handle it walks over has the
identity looked for. -/
theorem unsubscribeLoop_no_match (name : String) (fs : List subFunc)
    (h : ∀ f ∈ fs, getFunctionName f ≠ name) :
    ∀ (idx : Nat) (q : subQueue), unsubscribeLoop name idx fs q = q := by
  induction fs with
  | nil => intro idx q; rfl
  | cons f fs ih =>
    intro idx q
    have hf : ¬ name = getFunctionName f := fun e => h f (by simp) e.symm
    simp only [unsubscribeLoop, hf, if_false]
    exact ih (fun g hg => h g (by simp [hg])) (idx + 1) q

/-- On handles with unique identities the loop removes exactly the handle with
the identity looked for: `kept` are the handles already walked over. -/
theorem unsubscribeLoop_unique (name : String) (fs : List subFunc) :
    ∀ (kept : List subFunc), (fs.map getFunctionName).Nodup →
      unsubscribeLoop name kept.length fs ⟨kept ++ fs⟩
        = ⟨kept ++ fs.filter (fun f => getFunctionName f != name)⟩ := by
  induction fs with
  | nil => intro kept _; simp [unsubscribeLoop]
  | cons f fs ih =>
    intro kept hnd
    have hnd1 : (fs.map getFunctionName).Nodup := (List.nodup_cons.mp (by simpa using hnd)).2
    have hnotin : getFunctionName f ∉ fs.map getFunctionName :=
      (List.nodup_cons.mp (by simpa using hnd)).1
    by_cases hm : name = getFunctionName f
    · have hrest : ∀ g ∈ fs, getFunctionName g ≠ name := by
        intro g hg hgn
        exact hnotin (List.mem_map.mpr ⟨g, hg, by rw [hgn, hm]⟩)
      have hfilter : fs.filter (fun f => getFunctionName f != name) = fs := by
        apply List.filter_eq_self.mpr
        intro g hg
        simpa using hrest g hg
      have herase : (subQueue.mk (kept ++ f :: fs)).popFuncAt kept.length = ⟨kept ++ fs⟩ := by
        simp [subQueue.popFuncAt, List.eraseIdx_append_of_length_le]
      simp only [unsubscribeLoop, hm, if_true]
      rw [← hm, herase, unsubscribeLoop_no_match name fs hrest]
      have hself : (getFunctionName f != name) = false := by simp [hm]
      rw [List.filter_cons, hself, hfilter]
      rfl
    · have hne : ¬ getFunctionName f = name := fun e => hm e.symm
      have h1 := ih (kept ++ [f]) hnd1
      simp only [List.length_append, List.length_singleton, List.append_assoc,
        List.singleton_append] at h1
      simp only [unsubscribeLoop, hm, if_false]
      rw [h1]
      simp [List.filter_cons, hne]

/-- A successful `Unsubscribe`: the returned values and the registry
afterwards, `q1` being what the removal loop leaves of the queue. -/
theorem Unsubscribe_success (d : Publisher) (s : subFunc) (e : String) (q : subQueue)
    (hq : d.subscribers e = some q) (hid : q.hasIdentity (getFunctionName s)) :
    (d.Unsubscribe s e).ok = true ∧ (d.Unsubscribe s e).err = none ∧
    (d.Unsubscribe s e).state.subscribers e =
      (if (unsubscribeLoop (getFunctionName s) 0 q.subscribers q).subscribers = [] then none
        else some (unsubscribeLoop (getFunctionName s) 0 q.subscribers q)) ∧
    (∀ k, k ≠ e → (d.Unsubscribe s e).state.subscribers k = d.subscribers k) := by
  have hex : d.subscriberToEventAlreadyExists s e = true :=
    (alreadyExists_iff d s e q hq).mpr hid
  simp only [Publisher.Unsubscribe, hq, hex, Publisher.SubscribersCount, Publisher.store,
    Publisher.delete]
  refine ⟨by simp, by simp, ?_, ?_⟩
  · by_cases hl : (unsubscribeLoop (getFunctionName s) 0 q.subscribers q).subscribers = []
    · simp [hl]
    · simp [hl]
  · intro k hk
    by_cases hl : (unsubscribeLoop (getFunctionName s) 0 q.subscribers q).subscribers = []
    · simp [hl, hk]
    · simp [hl, hk]

/-- On a queue with unique identities a successful `Unsubscribe` leaves the
queue without the handle of the callback's identity, the other handles in
their order. -/
theorem unsubscribeLoop_unique_queue (name : String) (q : subQueue)
    (hu : q.uniqueIdentities) :
    unsubscribeLoop name 0 q.subscribers q
      = ⟨q.subscribers.filter (fun f => getFunctionName f != name)⟩ := by
  have h := unsubscribeLoop_unique name q.subscribers [] hu
  simpa using h

/-- After `CreateEvent`, a name that is not listed has the queue it had. -/
theorem CreateEvent_other (events : List String) (d : Publisher) (k : String)
    (h : k ∉ events) : (d.CreateEvent events).subscribers k = d.subscribers k := by
  induction events generalizing d with
  | nil => rfl
  | cons x xs ih =>
    have hx : k ≠ x := fun e => h (by simp [e])
    have hxs : k ∉ xs := fun e => h (by simp [e])
    show ((d.createOne x).CreateEvent xs).subscribers k = d.subscribers k
    rw [ih (d.createOne x) hxs, createOne_other d x k hx]

theorem Publish_state (d : Publisher) (event : String) (data : EventPayload) (now : Nat) :
    (d.Publish event data now).state = d := by
  unfold Publisher.Publish
  cases d.subscribers event with
  | none => rfl
  | some q =>
    by_cases hl : q.getAllSubs.length = 0
    · simp [hl]
    · simp [hl]

theorem CreateEvent_uniqueIdentities (d : Publisher) (events : List String)
    (h : d.uniqueIdentities) : (d.CreateEvent events).uniqueIdentities := by
  intro ev q hq
  by_cases hev : ev ∈ events
  · rw [CreateEvent_listed events d ev hev] at hq
    cases hq
    simp [subQueue.uniqueIdentities, newQueue]
  · rw [CreateEvent_other events d ev hev] at hq
    exact h ev q hq

theorem Subscribe_uniqueIdentities (event : String) (subs : List subFunc) :
    ∀ (d : Publisher) (r : Publisher × List LogEntry), d.uniqueIdentities →
      d.Subscribe event subs = some r → r.1.uniqueIdentities := by
  induction subs with
  | nil =>
    intro d r h hr
    rw [Subscribe_nil] at hr
    cases hr
    exact h
  | cons s rest ih =>
    intro d r h hr
    cases hex : d.subscriberToEventAlreadyExists s event with
    | true =>
      rw [Subscribe_cons_present d event s rest hex] at hr
      exact ih d r h hr
    | false =>
      cases hq : d.subscribers event with
      | none => simp [Publisher.Subscribe, hex, hq] at hr
      | some q =>
        rw [Subscribe_cons_absent d event s rest q hq hex] at hr
        cases hrec : (d.store event (q.pushFunc s)).Subscribe event rest with
        | none => simp [hrec] at hr
        | some r1 =>
          rw [hrec] at hr
          simp only [Option.map_some', Option.some.injEq] at hr
          have hinv : (d.store event (q.pushFunc s)).uniqueIdentities := by
            intro ev q1 hq1
            by_cases hev : ev = event
            · subst hev
              rw [store_same] at hq1
              cases hq1
              have hno : ¬ q.hasIdentity (getFunctionName s) := by
                intro hid
                have := (alreadyExists_iff d s ev q hq).mpr hid
                rw [hex] at this
                exact Bool.noConfusion this
              have hu := h ev q hq
              unfold subQueue.uniqueIdentities at hu ⊢
              simp only [subQueue.pushFunc, List.map_append, List.map_cons, List.map_nil]
              refine List.Nodup.append hu (List.nodup_singleton _) ?_
              intro a ha hb
              simp only [List.mem_singleton] at hb
              obtain ⟨f, hf, hfa⟩ := List.mem_map.mp ha
              exact hno ⟨f, hf, by rw [hfa, hb]⟩
            · rw [store_other d event ev _ hev] at hq1
              exact h ev q1 hq1
          have := ih _ r1 hinv hrec
          rw [← hr]
          exact this

theorem Unsubscribe_uniqueIdentities (d : Publisher) (s : subFunc) (event : String)
    (h : d.uniqueIdentities) : (d.Unsubscribe s event).state.uniqueIdentities := by
  cases hq : d.subscribers event with
  | none =>
    have : (d.Unsubscribe s event).state = d := by simp [Publisher.Unsubscribe, hq]
    rw [this]; exact h
  | some q =>
    cases hex : d.subscriberToEventAlreadyExists s event with
    | false =>
      have : (d.Unsubscribe s event).state = d := by simp [Publisher.Unsubscribe, hq, hex]
      rw [this]; exact h
    | true =>
      have hid := (alreadyExists_iff d s event q hq).mp hex
      obtain ⟨_, _, hst, hother⟩ := Unsubscribe_success d s event q hq hid
      intro ev q1 hq1
      by_cases hev : ev = event
      · subst hev
        rw [hst] at hq1
        split at hq1
        · cases hq1
        · cases hq1
          have hsub := unsubscribeLoop_sublist (getFunctionName s) q.subscribers 0 q
          exact List.Nodup.sublist (hsub.map getFunctionName) (h ev q hq)
      · rw [hother ev hev] at hq1
        exact h ev q1 hq1

/-! ### Logging flags -/

theorem logInf_disabled (d : Publisher) (msg : String) (h : d.DisableLogs = true) :
    d.logInf msg = [] := by
  simp [Publisher.logInf, h]

theorem logErr_disabled (d : Publisher) (msg : String) (h : d.DisableLogs = true) :
    d.logErr msg = [] := by
  simp [Publisher.logErr, h]

/-- `CreateEvent` leaves the logger and the flag `DisableLogs` as they are. -/
theorem CreateEvent_flags (events : List String) (d : Publisher) :
    (d.CreateEvent events).DisableLogs = d.DisableLogs ∧ (d.CreateEvent events).l = d.l := by
  induction events generalizing d with
  | nil => exact ⟨rfl, rfl⟩
  | cons x xs ih =>
    have h1 : (d.createOne x).DisableLogs = d.DisableLogs ∧ (d.createOne x).l = d.l := by
      unfold Publisher.createOne
      simp only [Publisher.store]
      split
      · split <;> exact ⟨rfl, rfl⟩
      · exact ⟨rfl, rfl⟩
    have h2 := ih (d.createOne x)
    exact ⟨h2.1.trans h1.1, h2.2.trans h1.2⟩

/-- `Subscribe` touches only the queue of its event, leaves the logger and the
flag `DisableLogs` as they are, and logs nothing when logging is disabled. -/
theorem Subscribe_frame (event : String) (subs : List subFunc) :
    ∀ (d : Publisher) (r : Publisher × List LogEntry), d.Subscribe event subs = some r →
      (∀ k, k ≠ event → r.1.subscribers k = d.subscribers k) ∧
      r.1.DisableLogs = d.DisableLogs ∧ r.1.l = d.l ∧
      (d.DisableLogs = true → r.2 = []) := by
  induction subs with
  | nil =>
    intro d r hr
    rw [Subscribe_nil] at hr
    cases hr
    exact ⟨fun _ _ => rfl, rfl, rfl, fun _ => rfl⟩
  | cons s rest ih =>
    intro d r hr
    cases hex : d.subscriberToEventAlreadyExists s event with
    | true =>
      rw [Subscribe_cons_present d event s rest hex] at hr
      exact ih d r hr
    | false =>
      cases hq : d.subscribers event with
      | none => simp [Publisher.Subscribe, hex, hq] at hr
      | some q =>
        rw [Subscribe_cons_absent d event s rest q hq hex] at hr
        cases hrec : (d.store event (q.pushFunc s)).Subscribe event rest with
        | none => simp [hrec] at hr
        | some r1 =>
          rw [hrec] at hr
          simp only [Option.map_some', Option.some.injEq] at hr
          obtain ⟨hk, hdl, hl, hlog⟩ := ih _ r1 hrec
          rw [← hr]
          refine ⟨?_, hdl, hl, ?_⟩
          · intro k hne
            rw [hk k hne]
            exact store_other d event k _ hne
          · intro hdis
            have h1 : (d.store event (q.pushFunc s)).DisableLogs = true := hdis
            simp [logInf_disabled _ _ h1, hlog h1]

/-- An `Unsubscribe` that reports a failure leaves the state as it is and logs
nothing. -/
theorem Unsubscribe_failure (d : Publisher) (s : subFunc) (event : String)
    (h : (d.Unsubscribe s event).ok = false) :
    (d.Unsubscribe s event).state = d ∧ (d.Unsubscribe s event).log = [] := by
  cases hq : d.subscribers event with
  | none => simp [Publisher.Unsubscribe, hq]
  | some q =>
    cases hex : d.subscriberToEventAlreadyExists s event with
    | false => simp [Publisher.Unsubscribe, hq, hex]
    | true => simp [Publisher.Unsubscribe, hq, hex] at h

/-- `Unsubscribe` touches only the queue of its event and leaves the logger and
the flag `DisableLogs` as they are. -/
theorem Unsubscribe_frame (d : Publisher) (s : subFunc) (event : String) :
    (∀ k, k ≠ event → (d.Unsubscribe s event).state.subscribers k = d.subscribers k) ∧
    (d.Unsubscribe s event).state.DisableLogs = d.DisableLogs ∧
    (d.Unsubscribe s event).state.l = d.l := by
  cases hq : d.subscribers event with
  | none => simp [Publisher.Unsubscribe, hq]
  | some q =>
    cases hex : d.subscriberToEventAlreadyExists s event with
    | false => simp [Publisher.Unsubscribe, hq, hex]
    | true =>
      have hid := (alreadyExists_iff d s event q hq).mp hex
      refine ⟨(Unsubscribe_success d s event q hq hid).2.2.2, ?_, ?_⟩
      · simp only [Publisher.Unsubscribe, hq, hex, Bool.not_true, Bool.false_eq_true, if_false]
        split <;> rfl
      · simp only [Publisher.Unsubscribe, hq, hex, Bool.not_true, Bool.false_eq_true, if_false]
        split <;> rfl

/-- With logging disabled `Unsubscribe` logs nothing. -/
theorem Unsubscribe_log_disabled (d : Publisher) (s : subFunc) (event : String)
    (h : d.DisableLogs = true) : (d.Unsubscribe s event).log = [] := by
  cases hq : d.subscribers event with
  | none => simp [Publisher.Unsubscribe, hq]
  | some q =>
    cases hex : d.subscriberToEventAlreadyExists s event with
    | false => simp [Publisher.Unsubscribe, hq, hex]
    | true =>
      simp only [Publisher.Unsubscribe, hq, hex, Bool.not_true, Bool.false_eq_true, if_false]
      split
      · exact logInf_disabled _ _ h
      · exact logInf_disabled _ _ h

/-- Two publishers with the same registry, logger and flag are the same. -/
theorem Publisher.eq_of_fields (d1 d2 : Publisher) (hs : d1.subscribers = d2.subscribers)
    (hl : d1.l = d2.l) (hd : d1.DisableLogs = d2.DisableLogs) : d1 = d2 := by
  cases d1
  cases d2
  simp only [Publisher.mk.injEq]
  exact ⟨hs, hl, hd⟩

/-- Creating an event that was just created changes nothing. -/
theorem createOne_createOne (d : Publisher) (e : String) :
    (d.createOne e).createOne e = d.createOne e := by
  have hf1 := CreateEvent_flags [e] (d.createOne e)
  apply Publisher.eq_of_fields
  · funext k
    by_cases hk : k = e
    · subst hk
      rw [createOne_same, createOne_same]
    · rw [createOne_other _ _ _ hk]
  · exact hf1.2
  · exact hf1.1

/-- Subscribing a callback whose identity a queue with unique identities
lacks, then running the removal loop for that identity, gives the queue
back. -/
theorem unsubscribeLoop_pushFunc (q : subQueue) (s : subFunc) (hu : q.uniqueIdentities)
    (hno : ¬ q.hasIdentity (getFunctionName s)) :
    unsubscribeLoop (getFunctionName s) 0 (q.pushFunc s).subscribers (q.pushFunc s) = q := by
  have hnotin : ∀ f ∈ q.subscribers, getFunctionName f ≠ getFunctionName s :=
    fun f hf hn => hno ⟨f, hf, hn⟩
  have hu1 : (q.pushFunc s).uniqueIdentities := by
    unfold subQueue.uniqueIdentities at hu ⊢
    simp only [subQueue.pushFunc, List.map_append, List.map_cons, List.map_nil]
    refine List.Nodup.append hu (List.nodup_singleton _) ?_
    intro a ha hb
    simp only [List.mem_singleton] at hb
    obtain ⟨f, hf, hfa⟩ := List.mem_map.mp ha
    exact hnotin f hf (by rw [hfa, hb])
  rw [unsubscribeLoop_unique_queue _ _ hu1]
  have hfilter : q.subscribers.filter (fun f => getFunctionName f != getFunctionName s)
      = q.subscribers := by
    apply List.filter_eq_self.mpr
    intro g hg
    simpa using hnotin g hg
  simp [subQueue.pushFunc, List.filter_append, hfilter]

/-- C1: for every publisher state and every list of names passed to
`CreateEvent`, each listed name exists afterwards and has no subscriber,
whatever queue it had before the call. -/
theorem C1_CreateEvent_exists_and_empty (d : Publisher) (events : List String) (e : String)
    (h : e ∈ events) :
    (d.CreateEvent events).EventExist e = true ∧ (d.CreateEvent events).SubscribersCount e = 0 := by
  have hq := CreateEvent_listed events d e h
  simp [Publisher.EventExist, Publisher.SubscribersCount, hq, newQueue]

/-- Witness of C1: the event "x" holds one subscriber before `CreateEvent("x")`
and none afterwards. -/
theorem C1_CreateEvent_exists_and_empty_witness :
    "x" ∈ ["x"] ∧
    ((NewPublisher.store "x" ⟨[⟨"A", 1⟩]⟩).SubscribersCount "x" = 1 ∧
    (((NewPublisher.store "x" ⟨[⟨"A", 1⟩]⟩).CreateEvent ["x"]).EventExist "x" = true ∧
      ((NewPublisher.store "x" ⟨[⟨"A", 1⟩]⟩).CreateEvent ["x"]).SubscribersCount "x" = 0)) :=
  ⟨by simp, by simp [Publisher.SubscribersCount, Publisher.store],
    C1_CreateEvent_exists_and_empty (NewPublisher.store "x" ⟨[⟨"A", 1⟩]⟩) ["x"] "x" (by simp)⟩

/-- C2: `Publish` returns `(false, ErrEventDoesNotExist)` when the event is
absent from the registry, `(false, ErrNoSubscribers)` when the event exists
with an empty queue, and `(true, nil)` exactly when the event exists with at
least one subscriber. -/
theorem C2_Publish_results (d : Publisher) (event : String) (data : EventPayload) (now : Nat) :
    (d.EventExist event = false →
      (d.Publish event data now).ok = false ∧
      (d.Publish event data now).err = some PubError.ErrEventDoesNotExist) ∧
    (d.EventExist event = true → d.SubscribersCount event = 0 →
      (d.Publish event data now).ok = false ∧
      (d.Publish event data now).err = some PubError.ErrNoSubscribers) ∧
    (((d.Publish event data now).ok = true ∧ (d.Publish event data now).err = none) ↔
      (d.EventExist event = true ∧ 0 < d.SubscribersCount event)) := by
  unfold Publisher.Publish Publisher.EventExist Publisher.SubscribersCount
  cases hq : d.subscribers event with
  | none => simp
  | some q =>
    by_cases hl : q.subscribers = []
    · simp [subQueue.getAllSubs, hl]
    · simp [subQueue.getAllSubs, hl, List.length_pos]

/-- Witness of C2 on three states: no event, an event with an empty queue, an
event with one subscriber. -/
theorem C2_Publish_results_witness :
    ((NewPublisher.Publish "x" ⟨⟨"", 0⟩, "p"⟩ 7).ok = false ∧
      (NewPublisher.Publish "x" ⟨⟨"", 0⟩, "p"⟩ 7).err = some PubError.ErrEventDoesNotExist) ∧
    (((NewPublisher.CreateEvent ["x"]).Publish "x" ⟨⟨"", 0⟩, "p"⟩ 7).ok = false ∧
      ((NewPublisher.CreateEvent ["x"]).Publish "x" ⟨⟨"", 0⟩, "p"⟩ 7).err
        = some PubError.ErrNoSubscribers) ∧
    (((NewPublisher.store "x" ⟨[⟨"A", 1⟩]⟩).Publish "x" ⟨⟨"", 0⟩, "p"⟩ 7).ok = true ∧
      ((NewPublisher.store "x" ⟨[⟨"A", 1⟩]⟩).Publish "x" ⟨⟨"", 0⟩, "p"⟩ 7).err = none) :=
  ⟨(C2_Publish_results NewPublisher "x" ⟨⟨"", 0⟩, "p"⟩ 7).1 (by rfl),
    (C2_Publish_results (NewPublisher.CreateEvent ["x"]) "x" ⟨⟨"", 0⟩, "p"⟩ 7).2.1
      (by simp [Publisher.EventExist, Publisher.CreateEvent, createOne_same])
      (by simp [Publisher.SubscribersCount, Publisher.CreateEvent, createOne_same, newQueue]),
    (C2_Publish_results (NewPublisher.store "x" ⟨[⟨"A", 1⟩]⟩) "x" ⟨⟨"", 0⟩, "p"⟩ 7).2.2.2
      ⟨by simp [Publisher.EventExist, Publisher.store],
        by simp [Publisher.SubscribersCount, Publisher.store]⟩⟩

/-- C3: `Unsubscribe` returns `(false, ErrEventDoesNotExist)` when the event is
absent from the registry, `(false, ErrSubscriberDoesNotExist)` when the event
exists and no handle of its queue has the identity of the callback, and
`(true, nil)` exactly when the event exists and its queue holds a handle with
the identity of the callback. -/
theorem C3_Unsubscribe_results (d : Publisher) (subscriber : subFunc) (event : String) :
    (d.EventExist event = false →
      (d.Unsubscribe subscriber event).ok = false ∧
      (d.Unsubscribe subscriber event).err = some PubError.ErrEventDoesNotExist) ∧
    (∀ q, d.subscribers event = some q →
      (¬ ∃ f ∈ q.subscribers, getFunctionName f = getFunctionName subscriber) →
      (d.Unsubscribe subscriber event).ok = false ∧
      (d.Unsubscribe subscriber event).err = some PubError.ErrSubscriberDoesNotExist) ∧
    (((d.Unsubscribe subscriber event).ok = true ∧ (d.Unsubscribe subscriber event).err = none) ↔
      ∃ q, d.subscribers event = some q ∧
        ∃ f ∈ q.subscribers, getFunctionName f = getFunctionName subscriber) := by
  cases hq : d.subscribers event with
  | none => simp [Publisher.Unsubscribe, Publisher.EventExist, hq]
  | some q =>
    have hiff := alreadyExists_iff d subscriber event q hq
    by_cases hex : d.subscriberToEventAlreadyExists subscriber event = true
    · have hh := hiff.mp hex
      refine ⟨by simp [Publisher.EventExist, hq], ?_, ?_⟩
      · intro q1 hq1 hno
        cases hq1
        exact absurd hh hno
      · simp only [Publisher.Unsubscribe, hq, hex]
        simpa using hh
    · have hno : ¬ ∃ f ∈ q.subscribers, getFunctionName f = getFunctionName subscriber :=
        fun h => hex (hiff.mpr h)
      have hf : d.subscriberToEventAlreadyExists subscriber event = false := by
        simpa using hex
      refine ⟨by simp [Publisher.EventExist, hq], ?_, ?_⟩
      · intro q1 _ _
        simp [Publisher.Unsubscribe, hq, hf]
      · simp only [Publisher.Unsubscribe, hq, hf]
        simpa using hno

/-- Witness of C3 on three states: no event, an event whose queue lacks the
callback, an event whose queue holds it. -/
theorem C3_Unsubscribe_results_witness :
    ((NewPublisher.Unsubscribe ⟨"A", 1⟩ "x").ok = false ∧
      (NewPublisher.Unsubscribe ⟨"A", 1⟩ "x").err = some PubError.ErrEventDoesNotExist) ∧
    (((NewPublisher.store "x" ⟨[⟨"B", 2⟩]⟩).Unsubscribe ⟨"A", 1⟩ "x").ok = false ∧
      ((NewPublisher.store "x" ⟨[⟨"B", 2⟩]⟩).Unsubscribe ⟨"A", 1⟩ "x").err
        = some PubError.ErrSubscriberDoesNotExist) ∧
    (((NewPublisher.store "x" ⟨[⟨"B", 2⟩, ⟨"A", 1⟩]⟩).Unsubscribe ⟨"A", 1⟩ "x").ok = true ∧
      ((NewPublisher.store "x" ⟨[⟨"B", 2⟩, ⟨"A", 1⟩]⟩).Unsubscribe ⟨"A", 1⟩ "x").err = none) :=
  ⟨(C3_Unsubscribe_results NewPublisher ⟨"A", 1⟩ "x").1 (by rfl),
    (C3_Unsubscribe_results (NewPublisher.store "x" ⟨[⟨"B", 2⟩]⟩) ⟨"A", 1⟩ "x").2.1
      ⟨[⟨"B", 2⟩]⟩ (by simp [Publisher.store]) (by simp [getFunctionName]),
    (C3_Unsubscribe_results (NewPublisher.store "x" ⟨[⟨"B", 2⟩, ⟨"A", 1⟩]⟩) ⟨"A", 1⟩ "x").2.2.2
      ⟨⟨[⟨"B", 2⟩, ⟨"A", 1⟩]⟩, by simp [Publisher.store], by simp [getFunctionName]⟩⟩

/-- C4: on an existing event, `Subscribe` of a callback appends it at the end of
the queue when no handle has its identity and leaves the queue as it is
otherwise; subscribing the same callback twice, in two calls or twice in one
call, gives that same queue, and it holds exactly one handle with the identity
when the queue held at most one before. -/
theorem C4_Subscribe_idempotent (d : Publisher) (e : String) (s : subFunc) (q : subQueue)
    (he : d.subscribers e = some q) :
    (∃ r, d.Subscribe e [s] = some r ∧
      r.1.subscribers e =
        some (if q.hasIdentity (getFunctionName s) then q else ⟨q.subscribers ++ [s]⟩)) ∧
    (∃ r1 r2, d.Subscribe e [s] = some r1 ∧ r1.1.Subscribe e [s] = some r2 ∧
      r2.1.subscribers e = some (q.subscribed s)) ∧
    (∃ r, d.Subscribe e [s, s] = some r ∧ r.1.subscribers e = some (q.subscribed s)) ∧
    (q.identityCount (getFunctionName s) ≤ 1 →
      (q.subscribed s).identityCount (getFunctionName s) = 1) := by
  obtain ⟨r1, h1, hq1, _⟩ := Subscribe_single d e s q he
  obtain ⟨r2, h2, hq2, _⟩ := Subscribe_single r1.1 e s (q.subscribed s) hq1
  rw [subscribed_subscribed] at hq2
  refine ⟨⟨r1, h1, hq1⟩, ⟨r1, r2, h1, h2, hq2⟩, ?_, ?_⟩
  · have hdec := alreadyExists_eq_decide d s e q he
    by_cases hx : q.hasIdentity (getFunctionName s)
    · have hp : d.subscriberToEventAlreadyExists s e = true := by simp [hdec, hx]
      refine ⟨r1, ?_, hq1⟩
      rw [Subscribe_cons_present d e s [s] hp]
      exact h1
    · have hst : (d.store e (q.pushFunc s)).subscribers e = some (q.pushFunc s) :=
        store_same _ _ _
      have hpush : (q.pushFunc s).hasIdentity (getFunctionName s) :=
        ⟨s, by simp [subQueue.pushFunc], rfl⟩
      have hp : (d.store e (q.pushFunc s)).subscriberToEventAlreadyExists s e = true := by
        rw [alreadyExists_eq_decide _ s e _ hst]
        simp [hpush]
      have hpf : d.subscriberToEventAlreadyExists s e = false := by simp [hdec, hx]
      have hs := Subscribe_cons_absent d e s [s] q he hpf
      rw [Subscribe_cons_present _ e s [] hp, Subscribe_nil, Option.map_some'] at hs
      refine ⟨_, hs, ?_⟩
      rw [subscribed_absent q s hx]
      exact hst
  · intro hle
    by_cases hx : q.hasIdentity (getFunctionName s)
    · have hpos : 0 < q.identityCount (getFunctionName s) := by
        obtain ⟨f, hf, hn⟩ := hx
        exact List.countP_pos_iff.mpr ⟨f, hf, by simp [hn]⟩
      simp only [subQueue.subscribed, hx, if_true]
      omega
    · have hzero : q.identityCount (getFunctionName s) = 0 := by
        apply List.countP_eq_zero.mpr
        intro f hf hn
        exact hx ⟨f, hf, by simpa using hn⟩
      simp only [subQueue.subscribed, hx, if_false]
      unfold subQueue.identityCount at hzero ⊢
      simp [List.countP_append, hzero]

/-- Witness of C4: callback "A" subscribed twice in one call to the new event
"x". -/
theorem C4_Subscribe_idempotent_witness :
    (NewPublisher.CreateEvent ["x"]).subscribers "x" = some ⟨[]⟩ ∧
    (∃ r, (NewPublisher.CreateEvent ["x"]).Subscribe "x" [⟨"A", 1⟩, ⟨"A", 1⟩] = some r ∧
      r.1.subscribers "x" = some ⟨[⟨"A", 1⟩]⟩) ∧
    (subQueue.mk [⟨"A", 1⟩]).identityCount "A" = 1 :=
  have he : (NewPublisher.CreateEvent ["x"]).subscribers "x" = some ⟨[]⟩ :=
    createOne_same NewPublisher "x"
  have h := C4_Subscribe_idempotent (NewPublisher.CreateEvent ["x"]) "x" ⟨"A", 1⟩ ⟨[]⟩ he
  ⟨he, h.2.2.1, h.2.2.2 (by decide)⟩

/-- C5: when the queue of event `e` is exactly the one subscriber `s`,
`Unsubscribe(s, e)` returns `(true, nil)` and `e` is not in the registry
afterwards; when the queue holds `s` and a handle of another identity,
`Unsubscribe(s, e)` returns `(true, nil)` and `e` stays in the registry. -/
theorem C5_Unsubscribe_last_removes_event (d : Publisher) (e : String) (s : subFunc)
    (q : subQueue) (hq : d.subscribers e = some q) :
    (q.subscribers = [s] →
      (d.Unsubscribe s e).ok = true ∧ (d.Unsubscribe s e).err = none ∧
      (d.Unsubscribe s e).state.EventExist e = false) ∧
    (q.hasIdentity (getFunctionName s) →
      (∃ f ∈ q.subscribers, getFunctionName f ≠ getFunctionName s) →
      (d.Unsubscribe s e).ok = true ∧ (d.Unsubscribe s e).err = none ∧
      (d.Unsubscribe s e).state.EventExist e = true) := by
  constructor
  · intro hone
    have hid : q.hasIdentity (getFunctionName s) := ⟨s, by simp [hone], rfl⟩
    obtain ⟨hok, herr, hst, _⟩ := Unsubscribe_success d s e q hq hid
    refine ⟨hok, herr, ?_⟩
    have hloop : (unsubscribeLoop (getFunctionName s) 0 q.subscribers q).subscribers = [] := by
      simp [hone, unsubscribeLoop, subQueue.popFuncAt]
    simp [Publisher.EventExist, hst, hloop]
  · intro hid hother
    obtain ⟨hok, herr, hst, _⟩ := Unsubscribe_success d s e q hq hid
    refine ⟨hok, herr, ?_⟩
    have hlen := unsubscribeLoop_length (getFunctionName s) q.subscribers 0 q
    have hlt : q.subscribers.countP (fun f => getFunctionName f == getFunctionName s)
        < q.subscribers.length := by
      obtain ⟨f, hf, hn⟩ := hother
      have hle := List.countP_le_length (fun f => getFunctionName f == getFunctionName s)
        (l := q.subscribers)
      have hneq : q.subscribers.countP (fun f => getFunctionName f == getFunctionName s)
          ≠ q.subscribers.length := by
        intro heq
        have hall := List.countP_eq_length.mp heq f hf
        exact hn (by simpa using hall)
      omega
    have hne : (unsubscribeLoop (getFunctionName s) 0 q.subscribers q).subscribers ≠ [] := by
      intro h0
      rw [h0] at hlen
      simp at hlen
      omega
    simp [Publisher.EventExist, hst, hne]

/-- Witness of C5: the queue of "x" is the one subscriber "A", which is
unsubscribed. -/
theorem C5_Unsubscribe_last_removes_event_witness :
    (NewPublisher.store "x" ⟨[⟨"A", 1⟩]⟩).subscribers "x" = some ⟨[⟨"A", 1⟩]⟩ ∧
    (((NewPublisher.store "x" ⟨[⟨"A", 1⟩]⟩).Unsubscribe ⟨"A", 1⟩ "x").ok = true ∧
      ((NewPublisher.store "x" ⟨[⟨"A", 1⟩]⟩).Unsubscribe ⟨"A", 1⟩ "x").err = none ∧
      ((NewPublisher.store "x" ⟨[⟨"A", 1⟩]⟩).Unsubscribe ⟨"A", 1⟩ "x").state.EventExist "x"
        = false) :=
  ⟨store_same _ _ _,
    (C5_Unsubscribe_last_removes_event (NewPublisher.store "x" ⟨[⟨"A", 1⟩]⟩) "x" ⟨"A", 1⟩
      ⟨[⟨"A", 1⟩]⟩ (store_same _ _ _)).1 rfl⟩

/-- C6, evaluated on the code: `Subscribe` of a callback to an event that is
absent from the registry does not complete, for `d.subscribers[event]` is the
nil pointer and nothing stores a queue under the name; the event is not
created. -/
theorem C6_Subscribe_absent_event_fails :
    NewPublisher.EventExist "order.created" = false ∧
    NewPublisher.Subscribe "order.created" [⟨"A", 1⟩] = none := by
  constructor <;> rfl

/-- C7: whatever the subscribers do when called (return or panic), the function
built by `subWrapper` returns to its caller, and `Publish` on an event with at
least one subscriber returns `(true, nil)` and starts only goroutines that end
by returning. -/
theorem C7_subscriber_panic_isolated (d : Publisher) (run : subFunc → EventPayload → Outcome)
    (event : String) (data : EventPayload) (now : Nat) (q : subQueue)
    (hq : d.subscribers event = some q) (hne : q.subscribers ≠ []) :
    (∀ (f : subFunc) (ev : String) (args : EventPayload),
      (d.subWrapper run f ev args).1 = Outcome.returned) ∧
    (d.Publish event data now).ok = true ∧ (d.Publish event data now).err = none ∧
    (d.Publish event data now).launched ≠ [] ∧
    (∀ g ∈ (d.Publish event data now).launched, (g.exec d run).1 = Outcome.returned) := by
  have hw : ∀ (f : subFunc) (ev : String) (args : EventPayload),
      (d.subWrapper run f ev args).1 = Outcome.returned := by
    intro f ev args
    unfold Publisher.subWrapper
    cases run f args <;> rfl
  refine ⟨hw, ?_, ?_, ?_, ?_⟩
  · simp [Publisher.Publish, hq, subQueue.getAllSubs, hne]
  · simp [Publisher.Publish, hq, subQueue.getAllSubs, hne]
  · simp [Publisher.Publish, hq, subQueue.getAllSubs, hne]
  · intro g _
    exact hw g.subscriber g.event g.data

/-- Witness of C7: "A" always panics and every other callback returns; both are
subscribed to "x". -/
theorem C7_subscriber_panic_isolated_witness :
    (NewPublisher.store "x" ⟨[⟨"A", 1⟩, ⟨"B", 2⟩]⟩).subscribers "x"
      = some ⟨[⟨"A", 1⟩, ⟨"B", 2⟩]⟩ ∧
    ((NewPublisher.store "x" ⟨[⟨"A", 1⟩, ⟨"B", 2⟩]⟩).Publish "x" ⟨⟨"", 0⟩, "p"⟩ 7).ok = true ∧
    ((NewPublisher.store "x" ⟨[⟨"A", 1⟩, ⟨"B", 2⟩]⟩).Publish "x" ⟨⟨"", 0⟩, "p"⟩ 7).err = none :=
  have h := C7_subscriber_panic_isolated (NewPublisher.store "x" ⟨[⟨"A", 1⟩, ⟨"B", 2⟩]⟩)
    (fun f _ => if f.name = "A" then Outcome.panicked else Outcome.returned)
    "x" ⟨⟨"", 0⟩, "p"⟩ 7 ⟨[⟨"A", 1⟩, ⟨"B", 2⟩]⟩ (store_same _ _ _) (by simp)
  ⟨store_same _ _ _, h.2.1, h.2.2.1⟩

/-- C8: a successful `Publish` starts one goroutine for each handle of the
event's queue, in the order of the queue, and every one of them is passed the
same payload: the caller's payload with the header set to the event name and
the one time read by the call. -/
theorem C8_Publish_launches_queue (d : Publisher) (event : String) (data : EventPayload)
    (now : Nat) (q : subQueue) (hq : d.subscribers event = some q)
    (hne : q.subscribers ≠ []) :
    (d.Publish event data now).ok = true ∧
    (d.Publish event data now).launched.map Goroutine.subscriber = q.subscribers ∧
    (∀ g ∈ (d.Publish event data now).launched,
      g.event = event ∧ g.data = ⟨⟨event, now⟩, data.Data⟩) := by
  simp only [Publisher.Publish, hq, subQueue.getAllSubs]
  have hl : ¬ q.subscribers.length = 0 := by simpa using hne
  simp only [hl, if_false, List.map_map]
  refine ⟨trivial, ?_, ?_⟩
  · simp [Function.comp_def]
  · intro g hg
    obtain ⟨f, _, rfl⟩ := List.mem_map.mp hg
    exact ⟨rfl, rfl⟩

/-- Witness of C8: "A" and "B" are subscribed to "order.created", which is
published at time 7. -/
theorem C8_Publish_launches_queue_witness :
    ((NewPublisher.store "order.created" ⟨[⟨"A", 1⟩, ⟨"B", 2⟩]⟩).Publish
        "order.created" ⟨⟨"", 0⟩, "orderId: 42"⟩ 7).launched
      = [⟨⟨"A", 1⟩, "order.created", ⟨⟨"order.created", 7⟩, "orderId: 42"⟩⟩,
         ⟨⟨"B", 2⟩, "order.created", ⟨⟨"order.created", 7⟩, "orderId: 42"⟩⟩] ∧
    ((NewPublisher.store "order.created" ⟨[⟨"A", 1⟩, ⟨"B", 2⟩]⟩).Publish
        "order.created" ⟨⟨"", 0⟩, "orderId: 42"⟩ 7).launched.map Goroutine.subscriber
      = [⟨"A", 1⟩, ⟨"B", 2⟩] :=
  ⟨by rfl,
    (C8_Publish_launches_queue (NewPublisher.store "order.created" ⟨[⟨"A", 1⟩, ⟨"B", 2⟩]⟩)
      "order.created" ⟨⟨"", 0⟩, "orderId: 42"⟩ 7 ⟨[⟨"A", 1⟩, ⟨"B", 2⟩]⟩
      (store_same _ _ _) (by simp)).2.1⟩

/-- C10: in every state reachable from `NewPublisher` by calls of
`CreateEvent`, `Subscribe`, `Unsubscribe` and `Publish`, no queue of the
registry holds two handles with the same derived identity. -/
theorem C10_reachable_unique_identities (d : Publisher) (h : Reachable d) :
    ∀ ev q, d.subscribers ev = some q → (q.subscribers.map getFunctionName).Nodup := by
  have hinv : d.uniqueIdentities := by
    induction h with
    | init => intro ev q hq; cases hq
    | createEvent d events _ ih => exact CreateEvent_uniqueIdentities d events ih
    | subscribe d event subs r _ hr ih => exact Subscribe_uniqueIdentities event subs d r ih hr
    | unsubscribe d s event _ ih => exact Unsubscribe_uniqueIdentities d s event ih
    | publish d event data now _ ih => rw [Publish_state]; exact ih
  exact hinv

/-- Witness of C10: the state after `NewPublisher`, `CreateEvent("x")`,
`Subscribe("x", A, A, B)` and `Unsubscribe(A, "x")`. -/
theorem C10_reachable_unique_identities_witness :
    Reachable
      ((((NewPublisher.CreateEvent ["x"]).store "x" ⟨[⟨"A", 1⟩]⟩).store "x"
        ⟨[⟨"A", 1⟩, ⟨"B", 2⟩]⟩).Unsubscribe ⟨"A", 1⟩ "x").state ∧
    ∀ ev q,
      ((((NewPublisher.CreateEvent ["x"]).store "x" ⟨[⟨"A", 1⟩]⟩).store "x"
        ⟨[⟨"A", 1⟩, ⟨"B", 2⟩]⟩).Unsubscribe ⟨"A", 1⟩ "x").state.subscribers ev = some q →
      (q.subscribers.map getFunctionName).Nodup :=
  have hr : Reachable
      ((((NewPublisher.CreateEvent ["x"]).store "x" ⟨[⟨"A", 1⟩]⟩).store "x"
        ⟨[⟨"A", 1⟩, ⟨"B", 2⟩]⟩).Unsubscribe ⟨"A", 1⟩ "x").state :=
    Reachable.unsubscribe _ ⟨"A", 1⟩ "x"
      (Reachable.subscribe (NewPublisher.CreateEvent ["x"]) "x"
        [⟨"A", 1⟩, ⟨"A", 1⟩, ⟨"B", 2⟩]
        ((((NewPublisher.CreateEvent ["x"]).store "x" ⟨[⟨"A", 1⟩]⟩).store "x"
          ⟨[⟨"A", 1⟩, ⟨"B", 2⟩]⟩), [])
        (Reachable.createEvent NewPublisher ["x"] Reachable.init) (by rfl))
  ⟨hr, C10_reachable_unique_identities _ hr⟩

/-- C11: `logInf` calls the logger's `LogInfo` once with the message, and
`logErr` its `LogErr` once with the message, exactly when `DisableLogs` is
false and a logger is set; otherwise no call is made. -/
theorem C11_logging_gate (d : Publisher) (msg : String) :
    (d.logInf msg = [LogEntry.LogInfo msg] ↔ (d.DisableLogs = false ∧ d.l.isSome = true)) ∧
    (d.logErr msg = [LogEntry.LogErr msg] ↔ (d.DisableLogs = false ∧ d.l.isSome = true)) ∧
    (¬ (d.DisableLogs = false ∧ d.l.isSome = true) → d.logInf msg = [] ∧ d.logErr msg = []) := by
  unfold Publisher.logInf Publisher.logErr
  cases d.DisableLogs <;> cases d.l.isSome <;> simp

/-- Witness of C11: a publisher with a logger and logging enabled, and one
with logging disabled. -/
theorem C11_logging_gate_witness :
    (Publisher.mk (fun _ => none) (some ⟨1⟩) false).logInf "m" = [LogEntry.LogInfo "m"] ∧
    (Publisher.mk (fun _ => none) (some ⟨1⟩) false).logErr "m" = [LogEntry.LogErr "m"] ∧
    ((Publisher.mk (fun _ => none) (some ⟨1⟩) true).logInf "m" = [] ∧
      (Publisher.mk (fun _ => none) (some ⟨1⟩) true).logErr "m" = []) :=
  ⟨(C11_logging_gate (Publisher.mk (fun _ => none) (some ⟨1⟩) false) "m").1.mpr ⟨rfl, rfl⟩,
    (C11_logging_gate (Publisher.mk (fun _ => none) (some ⟨1⟩) false) "m").2.1.mpr ⟨rfl, rfl⟩,
    (C11_logging_gate (Publisher.mk (fun _ => none) (some ⟨1⟩) true) "m").2.2 (by simp)⟩

/-- C12, evaluated on the code: the publisher returned by `NewPublisher` has
`DisableLogs` equal to true, not false. -/
theorem C12_NewPublisher_DisableLogs_true :
    NewPublisher.DisableLogs = true ∧ NewPublisher.DisableLogs ≠ false := by
  constructor
  · rfl
  · decide

/-- C13: the publisher returned by `NewPublisher` has an empty registry and
logging disabled: no event exists, and after `SetLogger` with a logger
`logInf` and `logErr` make no call, nor do `Subscribe` and `Unsubscribe` after
any `CreateEvent`; once `DisableLogs` is set to false the calls are made. -/
theorem C13_NewPublisher_defaults (logger : Logger) (msg : String) :
    (∀ name, NewPublisher.EventExist name = false) ∧
    (NewPublisher.SetLogger (some logger)).logInf msg = [] ∧
    (NewPublisher.SetLogger (some logger)).logErr msg = [] ∧
    (∀ events event subs r,
      ((NewPublisher.SetLogger (some logger)).CreateEvent events).Subscribe event subs = some r →
      r.2 = [] ∧ r.1.logInf msg = [] ∧ r.1.logErr msg = [] ∧
      ∀ s, (r.1.Unsubscribe s event).log = []) ∧
    (Publisher.mk (NewPublisher.SetLogger (some logger)).subscribers
      (NewPublisher.SetLogger (some logger)).l false).logInf msg = [LogEntry.LogInfo msg] ∧
    (Publisher.mk (NewPublisher.SetLogger (some logger)).subscribers
      (NewPublisher.SetLogger (some logger)).l false).logErr msg = [LogEntry.LogErr msg] := by
  refine ⟨fun _ => rfl, rfl, rfl, ?_, rfl, rfl⟩
  intro events event subs r hr
  have hflag : ((NewPublisher.SetLogger (some logger)).CreateEvent events).DisableLogs = true :=
    (CreateEvent_flags events _).1
  obtain ⟨_, hdl, _, hlog⟩ := Subscribe_frame event subs _ r hr
  have hr1 : r.1.DisableLogs = true := hdl.trans hflag
  exact ⟨hlog hflag, logInf_disabled _ _ hr1, logErr_disabled _ _ hr1,
    fun s => Unsubscribe_log_disabled r.1 s event hr1⟩

/-- Witness of C13: after `SetLogger`, `CreateEvent("x")` and
`Subscribe("x", A)` nothing was logged, and `Unsubscribe(A, "x")` logs
nothing. -/
theorem C13_NewPublisher_defaults_witness :
    ((NewPublisher.SetLogger (some ⟨1⟩)).CreateEvent ["x"]).Subscribe "x" [⟨"A", 1⟩]
      = some (((NewPublisher.SetLogger (some ⟨1⟩)).CreateEvent ["x"]).store "x" ⟨[⟨"A", 1⟩]⟩, []) ∧
    ((((NewPublisher.SetLogger (some ⟨1⟩)).CreateEvent ["x"]).store "x"
      ⟨[⟨"A", 1⟩]⟩).Unsubscribe ⟨"A", 1⟩ "x").log = [] :=
  ⟨by rfl,
    ((C13_NewPublisher_defaults ⟨1⟩ "m").2.2.2.1 ["x"] "x" [⟨"A", 1⟩]
      (((NewPublisher.SetLogger (some ⟨1⟩)).CreateEvent ["x"]).store "x" ⟨[⟨"A", 1⟩]⟩, [])
      (by rfl)).2.2.2 ⟨"A", 1⟩⟩

/-- C14: with logging enabled and a logger set, the function built by
`subWrapper` for subscriber X and event Y logs, when the subscriber returns,
the info entry "Executing subscriber" then the info entry "Done executing",
and when the subscriber panics, the info entry "Executing subscriber" then one
error entry "processing failed" and no "Done executing" entry. -/
theorem C14_wrapper_log_entries (d : Publisher) (run : subFunc → EventPayload → Outcome)
    (f : subFunc) (event : String) (args : EventPayload)
    (hen : d.DisableLogs = false) (hl : d.l.isSome = true) :
    (run f args = Outcome.returned →
      (d.subWrapper run f event args).2 =
        [LogEntry.LogInfo
            ("Executing subscriber: " ++ getFunctionName f ++ ". Event: " ++ event),
          LogEntry.LogInfo
            ("Done executing subscriber " ++ getFunctionName f ++ ". Event: " ++ event)]) ∧
    (run f args = Outcome.panicked →
      (d.subWrapper run f event args).2 =
        [LogEntry.LogInfo
            ("Executing subscriber: " ++ getFunctionName f ++ ". Event: " ++ event),
          LogEntry.LogErr
            ("Subscriber: " ++ getFunctionName f ++ " processing failed for Event: " ++ event)]) := by
  constructor
  · intro h
    simp [Publisher.subWrapper, h, Publisher.logInf, hen, hl]
  · intro h
    simp [Publisher.subWrapper, h, Publisher.logInf, Publisher.logErr, hen, hl]

/-- Witness of C14: subscriber "A" panics on event "x", with a logger set and
logging enabled. -/
theorem C14_wrapper_log_entries_witness :
    ((Publisher.mk (fun _ => none) (some ⟨1⟩) false).subWrapper
        (fun _ _ => Outcome.panicked) ⟨"A", 1⟩ "x" ⟨⟨"x", 7⟩, "p"⟩).2 =
      [LogEntry.LogInfo ("Executing subscriber: " ++ "A" ++ ". Event: " ++ "x"),
        LogEntry.LogErr ("Subscriber: " ++ "A" ++ " processing failed for Event: " ++ "x")] :=
  (C14_wrapper_log_entries (Publisher.mk (fun _ => none) (some ⟨1⟩) false)
    (fun _ _ => Outcome.panicked) ⟨"A", 1⟩ "x" ⟨⟨"x", 7⟩, "p"⟩ rfl rfl).2 rfl

/-- C15: `CreateEvent` is idempotent: `CreateEvent(e)` twice, and the one call
`CreateEvent(e, e)`, leave the publisher as one `CreateEvent(e)` does; the call
with no name leaves the publisher as it is.  `CreateEvent` is a total
function: it gives a state for every list of names. -/
theorem C15_CreateEvent_idempotent (d : Publisher) (e : String) :
    (d.CreateEvent [e]).CreateEvent [e] = d.CreateEvent [e] ∧
    d.CreateEvent [e, e] = d.CreateEvent [e] ∧
    d.CreateEvent [] = d ∧
    (∀ k, ((d.CreateEvent [e]).CreateEvent [e]).subscribers k = (d.CreateEvent [e]).subscribers k) ∧
    (∀ k, (d.CreateEvent [e, e]).subscribers k = (d.CreateEvent [e]).subscribers k) := by
  have h1 : (d.CreateEvent [e]).CreateEvent [e] = d.CreateEvent [e] := createOne_createOne d e
  have h2 : d.CreateEvent [e, e] = d.CreateEvent [e] := createOne_createOne d e
  exact ⟨h1, h2, rfl, fun k => by rw [h1], fun k => by rw [h2]⟩

/-- C17: `Publish` never changes the registry: whichever result it returns,
the state afterwards is the state before, so every event and every queue is
as it was; the payload is a value parameter, and the stamped payload is the
one handed to the goroutines. -/
theorem C17_Publish_leaves_registry (d : Publisher) (event : String) (data : EventPayload)
    (now : Nat) :
    (d.Publish event data now).state = d ∧
    (∀ ev, (d.Publish event data now).state.subscribers ev = d.subscribers ev) ∧
    (∀ ev, (d.Publish event data now).state.EventExist ev = d.EventExist ev) ∧
    (∀ ev, (d.Publish event data now).state.SubscribersCount ev = d.SubscribersCount ev) ∧
    (∀ g ∈ (d.Publish event data now).launched,
      g.data = ⟨⟨event, now⟩, data.Data⟩) := by
  have h := Publish_state d event data now
  refine ⟨h, fun ev => by rw [h], fun ev => by rw [h], fun ev => by rw [h], ?_⟩
  intro g hg
  unfold Publisher.Publish at hg
  cases hq : d.subscribers event with
  | none => simp [hq] at hg
  | some q =>
    by_cases hl : q.getAllSubs.length = 0
    · simp [hq, hl] at hg
    · simp only [hq, hl, if_false] at hg
      obtain ⟨f, _, rfl⟩ := List.mem_map.mp hg
      rfl

/-- C18: an `Unsubscribe` that returns false returned `ErrEventDoesNotExist`
or `ErrSubscriberDoesNotExist`, left the registry and every queue as they
were, and made no log call. -/
theorem C18_Unsubscribe_failure_atomic (d : Publisher) (s : subFunc) (event : String)
    (h : (d.Unsubscribe s event).ok = false) :
    ((d.Unsubscribe s event).err = some PubError.ErrEventDoesNotExist ∨
      (d.Unsubscribe s event).err = some PubError.ErrSubscriberDoesNotExist) ∧
    (d.Unsubscribe s event).state = d ∧
    (∀ ev, (d.Unsubscribe s event).state.subscribers ev = d.subscribers ev) ∧
    (d.Unsubscribe s event).log = [] := by
  obtain ⟨hst, hlog⟩ := Unsubscribe_failure d s event h
  refine ⟨?_, hst, fun ev => by rw [hst], hlog⟩
  cases hq : d.subscribers event with
  | none => simp [Publisher.Unsubscribe, hq]
  | some q =>
    cases hex : d.subscriberToEventAlreadyExists s event with
    | false => simp [Publisher.Unsubscribe, hq, hex]
    | true => simp [Publisher.Unsubscribe, hq, hex] at h

/-- Witness of C18: "A" is unsubscribed from "x", whose queue holds "B" only,
with a logger set and logging enabled. -/
theorem C18_Unsubscribe_failure_atomic_witness :
    (((Publisher.mk (fun _ => none) (some ⟨1⟩) false).store "x" ⟨[⟨"B", 2⟩]⟩).Unsubscribe
        ⟨"A", 1⟩ "x").ok = false ∧
    (((Publisher.mk (fun _ => none) (some ⟨1⟩) false).store "x" ⟨[⟨"B", 2⟩]⟩).Unsubscribe
        ⟨"A", 1⟩ "x").state = (Publisher.mk (fun _ => none) (some ⟨1⟩) false).store "x" ⟨[⟨"B", 2⟩]⟩ ∧
    (((Publisher.mk (fun _ => none) (some ⟨1⟩) false).store "x" ⟨[⟨"B", 2⟩]⟩).Unsubscribe
        ⟨"A", 1⟩ "x").log = [] :=
  have h := C18_Unsubscribe_failure_atomic
    ((Publisher.mk (fun _ => none) (some ⟨1⟩) false).store "x" ⟨[⟨"B", 2⟩]⟩) ⟨"A", 1⟩ "x" (by rfl)
  ⟨by rfl, h.2.1, h.2.2.2⟩

/-- C19: `CreateEvent`, `Subscribe` and `Unsubscribe` change only the events
they name: an event name `k` that is not among the names of the call has the
same presence in the registry and the same queue after the call as before. -/
theorem C19_operations_frame (d : Publisher) (k : String) :
    (∀ events, k ∉ events → (d.CreateEvent events).subscribers k = d.subscribers k) ∧
    (∀ e subs r, k ≠ e → d.Subscribe e subs = some r → r.1.subscribers k = d.subscribers k) ∧
    (∀ s e, k ≠ e → (d.Unsubscribe s e).state.subscribers k = d.subscribers k) :=
  ⟨fun events hk => CreateEvent_other events d k hk,
    fun e subs r hk hr => (Subscribe_frame e subs d r hr).1 k hk,
    fun s e hk => (Unsubscribe_frame d s e).1 k hk⟩

/-- Witness of C19: the queue of "y" is the same after `CreateEvent("x")`,
after `Subscribe("x", B)` and after `Unsubscribe(B, "x")`. -/
theorem C19_operations_frame_witness :
    (((NewPublisher.store "y" ⟨[⟨"A", 1⟩]⟩).store "x" ⟨[⟨"B", 2⟩]⟩).CreateEvent ["x"]).subscribers
        "y" = some ⟨[⟨"A", 1⟩]⟩ ∧
    (((NewPublisher.store "y" ⟨[⟨"A", 1⟩]⟩).store "x" ⟨[⟨"B", 2⟩]⟩).Unsubscribe
        ⟨"B", 2⟩ "x").state.subscribers "y" = some ⟨[⟨"A", 1⟩]⟩ :=
  have h := C19_operations_frame ((NewPublisher.store "y" ⟨[⟨"A", 1⟩]⟩).store "x" ⟨[⟨"B", 2⟩]⟩) "y"
  ⟨(h.1 ["x"] (by decide)).trans (by rfl), (h.2.2 ⟨"B", 2⟩ "x" (by decide)).trans (by rfl)⟩

/-- C20: on an existing event whose queue has unique identities and no handle
with the identity of `s`, `Subscribe(e, s)` then `Unsubscribe(s, e)` returns
`(true, nil)`, and the registry is the one before the two calls exactly when
the queue was not empty; when the queue was empty, `e` is no longer in the
registry. -/
theorem C20_Subscribe_Unsubscribe_roundtrip (d : Publisher) (e : String) (s : subFunc)
    (q : subQueue) (hq : d.subscribers e = some q) (hu : q.uniqueIdentities)
    (hno : ¬ q.hasIdentity (getFunctionName s)) :
    ∃ r, d.Subscribe e [s] = some r ∧
      (r.1.Unsubscribe s e).ok = true ∧ (r.1.Unsubscribe s e).err = none ∧
      ((r.1.Unsubscribe s e).state.subscribers = d.subscribers ↔ q.subscribers ≠ []) ∧
      (q.subscribers = [] → (r.1.Unsubscribe s e).state.EventExist e = false) := by
  obtain ⟨r, hr, hre, hrk⟩ := Subscribe_single d e s q hq
  rw [subscribed_absent q s hno] at hre
  have hid : (q.pushFunc s).hasIdentity (getFunctionName s) :=
    ⟨s, by simp [subQueue.pushFunc], rfl⟩
  obtain ⟨hok, herr, hst, hother⟩ := Unsubscribe_success r.1 s e (q.pushFunc s) hre hid
  rw [unsubscribeLoop_pushFunc q s hu hno] at hst
  refine ⟨r, hr, hok, herr, ?_, ?_⟩
  · constructor
    · intro heq hempty
      have h1 := congrFun heq e
      rw [hst, hq] at h1
      simp [hempty] at h1
    · intro hne
      funext k
      by_cases hk : k = e
      · subst hk
        rw [hst, hq]
        simp [hne]
      · rw [hother k hk, hrk k hk]
  · intro hempty
    simp [Publisher.EventExist, hst, hempty]

/-- Witness of C20: on the queue "B" of "x" the two calls give the registry
back. -/
theorem C20_Subscribe_Unsubscribe_roundtrip_witness :
    ∃ r, (NewPublisher.store "x" ⟨[⟨"B", 2⟩]⟩).Subscribe "x" [⟨"A", 1⟩] = some r ∧
      (r.1.Unsubscribe ⟨"A", 1⟩ "x").ok = true ∧
      (r.1.Unsubscribe ⟨"A", 1⟩ "x").state.subscribers
        = (NewPublisher.store "x" ⟨[⟨"B", 2⟩]⟩).subscribers :=
  have h := C20_Subscribe_Unsubscribe_roundtrip (NewPublisher.store "x" ⟨[⟨"B", 2⟩]⟩) "x"
    ⟨"A", 1⟩ ⟨[⟨"B", 2⟩]⟩ (store_same _ _ _) (by decide) (by decide)
  h.elim fun r hr => ⟨r, hr.1, hr.2.1, hr.2.2.2.1.mpr (by simp)⟩

end Pub
